import Mathlib

/-!
Verification development for the dragonchain Go SDK.

The Go sources (inquirer.go, lucene.go, transaction.go, client.go) are
shallowly embedded below:

* Go `[]byte` values are `List Nat` (each element < 256 by construction);
* Go `string` values are Lean `String` (the sources only build ASCII data);
* Go `nil` slices/pointers are `Option.none`;
* the injectable HTTP layer (`httpClient` / `Inquirer`) is modelled by
  passing the wire-level outcome of a request (`ReqResult`) to each
  resource-client operation;
* Go map iteration order is nondeterministic, so the query builder takes the
  iteration order as an explicit parameter constrained to be a permutation of
  the map's entries.
-/

/-! ## Bytes and ASCII strings -/

/-- Go `[]byte(s)`: the bytes of a string.  The SDK only ever feeds ASCII
data through this conversion, so one char is one byte. -/
def bytesOfString (s : String) : List Nat :=
  s.data.map Char.toNat

/-- Go `string(b)`: a string built from raw bytes (each below 256). -/
def stringOfBytes (l : List Nat) : String :=
  ⟨l.map Char.ofNat⟩

/-- `strings.ToUpper` restricted to ASCII, which is all the SDK passes in
(HTTP method names). -/
def asciiUpperChar (c : Char) : Char :=
  if 'a' ≤ c ∧ c ≤ 'z' then Char.ofNat (c.toNat - 32) else c

/-- Go `strings.ToUpper`. -/
def toUpper (s : String) : String :=
  ⟨s.data.map asciiUpperChar⟩

/-! ## SHA-256 (`crypto/sha256`), executable, over `Nat` words -/

/-- Truncation to a 32-bit word. -/
def w32 (n : Nat) : Nat := n % 4294967296

/-- Right rotation of a 32-bit word. -/
def rotr (n x : Nat) : Nat := (x >>> n) ||| w32 (x <<< (32 - n))

def shaCh (x y z : Nat) : Nat := (x &&& y) ^^^ ((x ^^^ 4294967295) &&& z)

def shaMaj (x y z : Nat) : Nat := (x &&& y) ^^^ (x &&& z) ^^^ (y &&& z)

def bigSigma0 (x : Nat) : Nat := rotr 2 x ^^^ rotr 13 x ^^^ rotr 22 x

def bigSigma1 (x : Nat) : Nat := rotr 6 x ^^^ rotr 11 x ^^^ rotr 25 x

def smallSigma0 (x : Nat) : Nat := rotr 7 x ^^^ rotr 18 x ^^^ (x >>> 3)

def smallSigma1 (x : Nat) : Nat := rotr 17 x ^^^ rotr 19 x ^^^ (x >>> 10)

/-- The sixty-four round constants of FIPS 180-4, written in decimal
(cube-root fractional words of the first primes). -/
def shaK : List Nat :=
  [1116352408, 1899447441, 3049323471, 3921009573,
   961987163, 1508970993, 2453635748, 2870763221,
   3624381080, 310598401, 607225278, 1426881987,
   1925078388, 2162078206, 2614888103, 3248222580,
   3835390401, 4022224774, 264347078, 604807628,
   770255983, 1249150122, 1555081692, 1996064986,
   2554220882, 2821834349, 2952996808, 3210313671,
   3336571891, 3584528711, 113926993, 338241895,
   666307205, 773529912, 1294757372, 1396182291,
   1695183700, 1986661051, 2177026350, 2456956037,
   2730485921, 2820302411, 3259730800, 3345764771,
   3516065817, 3600352804, 4094571909, 275423344,
   430227734, 506948616, 659060556, 883997877,
   958139571, 1322822218, 1537002063, 1747873779,
   1955562222, 2024104815, 2227730452, 2361852424,
   2428436474, 2756734187, 3204031479, 3329325298]

/-- The initial state words of FIPS 180-4, written in decimal. -/
def shaH0 : List Nat :=
  [1779033703, 3144134277, 1013904242, 2773480762,
   1359893119, 2600822924, 528734635, 1541459225]

/-- Big-endian 32-bit words from bytes (input length a multiple of 4). -/
def bytesToWords : List Nat → List Nat
  | b0 :: b1 :: b2 :: b3 :: rest =>
      (((b0 * 256 + b1) * 256 + b2) * 256 + b3) :: bytesToWords rest
  | _ => []

/-- Big-endian bytes of a list of 32-bit words. -/
def wordsToBytes (ws : List Nat) : List Nat :=
  ws.flatMap fun w => [w / 16777216 % 256, w / 65536 % 256, w / 256 % 256, w % 256]

/-- Message schedule: extend the 16 block words to 64. -/
def shaSchedule (m : List Nat) : List Nat :=
  (List.range 48).foldl
    (fun w _ =>
      let t := w.length
      w ++ [w32 (smallSigma1 (w.getD (t - 2) 0) + w.getD (t - 7) 0 +
                 smallSigma0 (w.getD (t - 15) 0) + w.getD (t - 16) 0)])
    m

/-- One round of the SHA-256 compression function. -/
def shaRound (st : Nat × Nat × Nat × Nat × Nat × Nat × Nat × Nat)
    (kw : Nat × Nat) : Nat × Nat × Nat × Nat × Nat × Nat × Nat × Nat :=
  let (a, b, c, d, e, f, g, h) := st
  let t1 := w32 (h + bigSigma1 e + shaCh e f g + kw.1 + kw.2)
  let t2 := w32 (bigSigma0 a + shaMaj a b c)
  (w32 (t1 + t2), a, b, c, w32 (d + t1), e, f, g)

/-- Compress one 16-word block into the running state. -/
def shaCompress (h : List Nat) (block : List Nat) : List Nat :=
  let w := shaSchedule block
  let init := (h.getD 0 0, h.getD 1 0, h.getD 2 0, h.getD 3 0,
               h.getD 4 0, h.getD 5 0, h.getD 6 0, h.getD 7 0)
  let (a, b, c, d, e, f, g, hh) := (shaK.zip w).foldl shaRound init
  List.zipWith (fun x y => w32 (x + y)) h [a, b, c, d, e, f, g, hh]

/-- SHA-256 padding: append 0x80, zeros, and the 64-bit big-endian bit
length, reaching a multiple of 64 bytes. -/
def shaPad (msg : List Nat) : List Nat :=
  let len := msg.length
  let bitLen := len * 8
  let zeros := (64 + 56 - (len + 1) % 64) % 64
  msg ++ 0x80 :: List.replicate zeros 0 ++
    [bitLen / 72057594037927936 % 256, bitLen / 281474976710656 % 256,
     bitLen / 1099511627776 % 256, bitLen / 4294967296 % 256,
     bitLen / 16777216 % 256, bitLen / 65536 % 256,
     bitLen / 256 % 256, bitLen % 256]

/-- Split a (padded) byte list into 64-byte blocks. -/
def shaBlocks (l : List Nat) : List (List Nat) :=
  if h : l = [] then []
  else
    have : (l.drop 64).length < l.length := by
      have hl : 0 < l.length := List.length_pos.mpr h
      simp [List.length_drop]
      omega
    l.take 64 :: shaBlocks (l.drop 64)
termination_by l.length

/-- SHA-256 of a byte sequence (the digest, as 32 bytes). -/
def sha256 (msg : List Nat) : List Nat :=
  wordsToBytes ((shaBlocks (shaPad msg)).foldl
    (fun h blk => shaCompress h (bytesToWords blk)) shaH0)

/-! ## HMAC (`crypto/hmac`) and base64 (`encoding/base64`) -/

/-- HMAC (RFC 2104) over an arbitrary hash function with the given block
size, exactly as `crypto/hmac` computes it: a key longer than the block size
is first hashed, the key is zero-padded to the block size, and the result is
`H(opadKey ++ H(ipadKey ++ msg))`. -/
def hmacBytes (hashFn : List Nat → List Nat) (blockSize : Nat)
    (key msg : List Nat) : List Nat :=
  let key := if blockSize < key.length then hashFn key else key
  let key := key ++ List.replicate (blockSize - key.length) 0
  let ipadKey := key.map (fun b => b ^^^ 0x36)
  let opadKey := key.map (fun b => b ^^^ 0x5c)
  hashFn (opadKey ++ hashFn (ipadKey ++ msg))

/-- The standard base64 alphabet of `base64.StdEncoding`. -/
def base64Alphabet : List Char :=
  "ABCDEFGHIJKLMNOPQRSTUVWXYZabcdefghijklmnopqrstuvwxyz0123456789+/".data

def b64char (n : Nat) : Char := base64Alphabet.getD n 'A'

/-- `base64.StdEncoding.EncodeToString`, with `=` padding. -/
def base64Encode : List Nat → List Char
  | b0 :: b1 :: b2 :: rest =>
      let n := (b0 * 256 + b1) * 256 + b2
      b64char (n / 262144) :: b64char (n / 4096 % 64) ::
        b64char (n / 64 % 64) :: b64char (n % 64) :: base64Encode rest
  | [b0, b1] =>
      let n := (b0 * 256 + b1) * 256
      [b64char (n / 262144), b64char (n / 4096 % 64), b64char (n / 64 % 64), '=']
  | [b0] =>
      let n := b0 * 65536
      [b64char (n / 262144), b64char (n / 4096 % 64), '=', '=']
  | [] => []

def base64Std (l : List Nat) : String := ⟨base64Encode l⟩

/-! ## Credentials and the signer (inquirer.go) -/

/-- A `hash.Hash` value: the hash function it computes together with its
block size (Go obtains the latter through `BlockSize()`). -/
structure HashAlgo where
  run : List Nat → List Nat
  blockSize : Nat

/-- `sha256.New()`, the package-level `defaultSigningAlgo`. -/
def sha256Algo : HashAlgo := ⟨sha256, 64⟩

/-- `Credentials` from inquirer.go.  A `nil` `hash.Hash` interface value is
`none`. -/
structure Credentials where
  DragonChainID : String
  APIKey : String
  ClientID : String
  SigningAlgorithm : Option HashAlgo

/-- `inquirer.hmacSign`: falls back to the default SHA-256 algorithm when
`Credentials.SigningAlgorithm` is nil, then HMACs the message with the
API key.  (Note: nothing in the sources calls this function.) -/
def hmacSign (creds : Credentials) (message : String) : List Nat :=
  let signingAlgo := creds.SigningAlgorithm.getD sha256Algo
  hmacBytes signingAlgo.run signingAlgo.blockSize
    (bytesOfString creds.APIKey) (bytesOfString message)

/-- `inquirer.authorizationHeader`.  A nil body is replaced by the empty
byte sequence before hashing.  The HMAC at the end is built directly from
`Credentials.SigningAlgorithm` with no nil fallback: when that field is nil,
`hmac.New` receives a nil `hash.Hash` and the computation panics, modelled
here as `none`. -/
def authorizationHeader (creds : Credentials)
    (method resource contentType timestamp : String)
    (content : Option (List Nat)) : Option String :=
  let content := match content with
    | none => []
    | some c => c
  let hashedContent := sha256 content
  let b64Content := base64Std hashedContent
  let message :=
    toUpper method ++ "\n" ++ resource ++ "\n" ++ creds.DragonChainID ++ "\n" ++
      timestamp ++ "\n" ++ contentType ++ "\n" ++ b64Content
  match creds.SigningAlgorithm with
  | none => none
  | some algo =>
      some ("DC1-HMAC-SHA256 " ++ creds.ClientID ++ ":" ++
        stringOfBytes (hmacBytes algo.run algo.blockSize
          (bytesOfString creds.APIKey) (bytesOfString message)))

/-- The canonical signing string as the specification words it:
`UPPERCASE(method) + "\n" + resourcePath + "\n" + accountId + "\n" +
timestamp + "\n" + contentType + "\n" + base64(SHA256(body))`, an absent
body hashed as a zero-length byte sequence. -/
def specCanonicalString (method resourcePath accountId timestamp
    contentType : String) (body : Option (List Nat)) : String :=
  toUpper method ++ "\n" ++ resourcePath ++ "\n" ++ accountId ++ "\n" ++
    timestamp ++ "\n" ++ contentType ++ "\n" ++
    base64Std (sha256 (body.getD []))

/-- The Authorization header value as the specification words it:
`DC1-HMAC-SHA256 <clientId>:<sig>` with `sig` the HMAC-SHA256 of the
canonical string keyed by the secret key (rendered as raw bytes). -/
def specAuthorizationValue (clientId accountId secretKey : String)
    (method resourcePath timestamp contentType : String)
    (body : Option (List Nat)) : String :=
  "DC1-HMAC-SHA256 " ++ clientId ++ ":" ++
    stringOfBytes (hmacBytes sha256 64 (bytesOfString secretKey)
      (bytesOfString (specCanonicalString method resourcePath accountId
        timestamp contentType body)))

/-! ## Timestamp formatting (inquirer.go, doRequest)

`doRequest` stamps each request with
`time.Now().UTC().Format("2006-01-02T15-04-05.999999") + "Z"`.
The layout separates hour, minute and second with hyphens, and the `.999999`
verb prints at most six fractional digits with trailing zeros removed,
dropping the dot entirely when the fraction is zero. -/

def pad2 (n : Nat) : String :=
  if n < 10 then "0" ++ toString n else toString n

def pad4 (n : Nat) : String :=
  if n < 10 then "000" ++ toString n
  else if n < 100 then "00" ++ toString n
  else if n < 1000 then "0" ++ toString n
  else toString n

def digitChar (n : Nat) : Char :=
  match n with
  | 0 => '0' | 1 => '1' | 2 => '2' | 3 => '3' | 4 => '4'
  | 5 => '5' | 6 => '6' | 7 => '7' | 8 => '8' | _ => '9'

/-- The six decimal digits of a microsecond count, most significant first. -/
def sixDigits (us : Nat) : List Char :=
  [digitChar (us / 100000 % 10), digitChar (us / 10000 % 10),
   digitChar (us / 1000 % 10), digitChar (us / 100 % 10),
   digitChar (us / 10 % 10), digitChar (us % 10)]

def dropTrailingZeros (l : List Char) : List Char :=
  (l.reverse.dropWhile (fun c => c = '0')).reverse

/-- Go's `.999999` fractional-second verb: six digits, trailing zeros
trimmed, the whole fraction (dot included) omitted when it trims to
nothing. -/
def goFrac6 (us : Nat) : String :=
  match dropTrailingZeros (sixDigits us) with
  | [] => ""
  | ds => "." ++ ⟨ds⟩

/-- The timestamp header value of `doRequest`:
`Format("2006-01-02T15-04-05.999999") + "Z"` applied to a UTC civil time. -/
def timestampHeader (y mo d h mi s us : Nat) : String :=
  pad4 y ++ "-" ++ pad2 mo ++ "-" ++ pad2 d ++ "T" ++ pad2 h ++ "-" ++
    pad2 mi ++ "-" ++ pad2 s ++ goFrac6 us ++ "Z"

/-- The timestamp as the claim words it: ISO-8601 with colons between hour,
minute and second, exactly six fractional digits, and a trailing `Z`. -/
def isoTimestampSpec (y mo d h mi s us : Nat) : String :=
  pad4 y ++ "-" ++ pad2 mo ++ "-" ++ pad2 d ++ "T" ++ pad2 h ++ ":" ++
    pad2 mi ++ ":" ++ pad2 s ++ "." ++ (⟨sixDigits us⟩ : String) ++ "Z"

/-- The timestamp as the amended claim words it: hyphens between hour,
minute and second; the microsecond fraction trimmed of trailing zeros and
omitted (dot included) when the microsecond count is zero; trailing `Z`. -/
def amendedTimestampSpec (y mo d h mi s us : Nat) : String :=
  pad4 y ++ "-" ++ pad2 mo ++ "-" ++ pad2 d ++ "T" ++ pad2 h ++ "-" ++
    pad2 mi ++ "-" ++ pad2 s ++
    (if us = 0 then "" else "." ++ (⟨dropTrailingZeros (sixDigits us)⟩ : String)) ++ "Z"

/-! ## The query builder (lucene.go)

`luceneQueryParams` builds a Go `map[string]string` holding `limit` and
`offset` (defaulted when non-positive) plus `q` and `sort` when non-empty,
renders each entry as `k=v&` in map-iteration order, and chops the final
`&`.  Map iteration order is nondeterministic in Go, so the embedding takes
the iteration order as an explicit list of entries; every permutation of the
map's entries is a possible order. -/

/-- `QueryOptions` from client.go.  The Go field `Sort` is `SortBy` here
(`Sort` is a Lean keyword). -/
structure QueryOptions where
  QueryString : String
  SortBy : String
  Offset : Int
  Limit : Int

/-- The digit-emitting loop of `strconv`: peel the least significant digit
until the value is a single digit.  The fuel argument only bounds the
iteration count (`n + 1` steps always suffice) and keeps the recursion
structural. -/
def natDigitsCore : Nat → Nat → List Char → List Char
  | 0, _, acc => acc
  | fuel + 1, n, acc =>
      if n < 10 then digitChar n :: acc
      else natDigitsCore fuel (n / 10) (digitChar (n % 10) :: acc)

/-- Decimal digits of a natural number, most significant first. -/
def natDigits (n : Nat) : List Char :=
  natDigitsCore (n + 1) n []

/-- `strconv.Itoa`. -/
def itoa (n : Int) : String :=
  if n < 0 then "-" ++ (⟨natDigits n.natAbs⟩ : String) else ⟨natDigits n.toNat⟩

/-- The entries of the query map, in the insertion order of the source
(iteration order is a permutation of this list). -/
def luceneEntries (q : QueryOptions) : List (String × String) :=
  [("limit", itoa (if q.Limit > 0 then q.Limit else 10)),
   ("offset", itoa (if q.Offset > 0 then q.Offset else 0))] ++
  (if q.QueryString = "" then [] else [("q", q.QueryString)]) ++
  (if q.SortBy = "" then [] else [("sort", q.SortBy)])

/-- One rendered `k=v` pair. -/
def renderEntry (p : String × String) : List Char :=
  p.1.data ++ '=' :: p.2.data

/-- `query += k + "=" + v + "&"` over all entries, then
`query[:len(query)-1]` to chop the final `&`. -/
def renderAll (l : List (String × String)) : List Char :=
  ((l.map renderEntry).map (fun e => e ++ ['&'])).flatten.dropLast

/-- `luceneQueryParams`, given the map-iteration order actually used. -/
def luceneQueryParams (q : QueryOptions) (order : List (String × String)) :
    String :=
  ⟨renderAll order⟩

/-- The URL of `QueryTransactions`: note the misspelled base path in the
source (`"/transation"`). -/
def queryTransactionsUrl (q : QueryOptions)
    (order : List (String × String)) : String :=
  let params := luceneQueryParams q order
  if params ≠ "" then "/transation" ++ "?" ++ params else "/transation"

/-- The URL of `QueryContracts`. -/
def queryContractsUrl (q : QueryOptions)
    (order : List (String × String)) : String :=
  let params := luceneQueryParams q order
  if params ≠ "" then "/contract" ++ "?" ++ params else "/contract"

/-! ## `strconv.Atoi` -/

def digitVal (c : Char) : Option Nat :=
  if '0' ≤ c ∧ c ≤ '9' then some (c.toNat - 48) else none

/-- The digits of a decimal literal, or `none` when empty or containing a
non-digit. -/
def parseDigits (l : List Char) : Option Nat :=
  match l with
  | [] => none
  | _ => l.foldl (fun acc c => acc.bind fun a => (digitVal c).map
      (fun d => a * 10 + d)) (some 0)

/-- `strconv.Atoi`: optional sign, decimal digits, 64-bit range check. -/
def atoi (s : String) : Option Int :=
  match s.data with
  | '+' :: rest => (parseDigits rest).bind fun n =>
      if n ≤ 9223372036854775807 then some (n : Int) else none
  | '-' :: rest => (parseDigits rest).bind fun n =>
      if n ≤ 9223372036854775808 then some (-(n : Int)) else none
  | l => (parseDigits l).bind fun n =>
      if n ≤ 9223372036854775807 then some (n : Int) else none

/-! ## Data model (transaction.go, client.go) -/

structure TransactionHeader where
  ID : String
  TxnType : String
  DragonChainID : String
  Tag : String
  Timestamp : String
  BlockID : String
  Invoker : String
deriving DecidableEq

structure TransactionProof where
  Full : String
  Stripped : String
deriving DecidableEq

structure Transaction where
  DCRN : String
  Version : Int
  Header : TransactionHeader
  Payload : String
  Proof : TransactionProof
deriving DecidableEq

/-- `TransactionDefinition`; the `interface{}` payload is modelled
opaquely as a string.  The Go field `Type` is `TxnType` here (`Type` is a
Lean keyword). -/
structure TransactionDefinition where
  Version : String
  TxnType : String
  Payload : String
  Tag : String
deriving DecidableEq

structure Contract where
  DCRN : String
  Version : String
  ID : String
  Name : String
  Status : String
  CustomEnvironment : List (String × String)
  Origin : String
  Runtime : String
  ScType : String
  Code : String
  S3Bucket : String
  S3Path : String
  Serial : Bool
deriving DecidableEq

/-- `ContractDefinition` (the newer copy in client.go); Go maps are
association lists here. -/
structure ContractDefinition where
  Version : String
  TxnType : String
  Order : String
  Image : String
  Command : String
  DesiredState : String
  Args : List String
  Environment : List (String × String)
  Secrets : List (String × String)
  Seconds : Int
  Cron : String
  Authentication : String
deriving DecidableEq

/-- The `{ok, status}` envelope present on every response. -/
structure HTTPResponse where
  OK : Bool
  StatusCode : Int
deriving DecidableEq

/-- The error surface of a resource-client operation:
`localErr` models the `fmt.Errorf` validation error returned before any
network call, `transportErr` models `&APIError{Err: err}` (request failed),
and `apiErr s` models `&APIError{StatusCode: s}` (envelope `ok` false). -/
inductive ClientError where
  | localErr : ClientError
  | transportErr : ClientError
  | apiErr : Int → ClientError
deriving DecidableEq

/-- The wire-level outcome the injected inquirer delivers for one request:
either a transport failure, or a decoded envelope together with the decoded
`response` payload. -/
inductive ReqResult (α : Type) where
  | fail : ReqResult α
  | resp : HTTPResponse → α → ReqResult α

/-! ## Resource-client operations

Each Go operation performs local validation/serialization, issues one
request through the inquirer, and unwraps the envelope.  The embedding
splits each operation at the inquirer boundary: the request side (resource
path and serialized body) and the response side (a function of the
`ReqResult` the inquirer delivers). -/

/-- `GetTransaction`, response side (`GET /transaction/{id}`). -/
def GetTransaction (id : String) (r : ReqResult Transaction) :
    Except ClientError Transaction :=
  match r with
  | .fail => .error .transportErr
  | .resp env tx => if env.OK then .ok tx else .error (.apiErr env.StatusCode)

/-- The definition `CreateTransaction` serializes and sends, when it sends
at all: `none` when `strconv.Atoi` rejects the version (local error, no
request issued), otherwise the definition with `Version` rewritten to `"1"`
when the parsed version is non-positive.  Because Go passes
`*TransactionDefinition`, this is also the caller's structure after the
call. -/
def createTransactionSent (d : TransactionDefinition) :
    Option TransactionDefinition :=
  match atoi d.Version with
  | none => none
  | some v => some (if v ≤ 0 then { d with Version := "1" } else d)

/-- The caller's definition after `CreateTransaction` returns: unchanged
when validation failed before the rewrite, otherwise the sent value. -/
def afterCreateTransaction (d : TransactionDefinition) :
    TransactionDefinition :=
  (createTransactionSent d).getD d

/-- `CreateTransaction`, end to end: local version validation, then the
envelope unwrap on the response (`POST /transaction`). -/
def CreateTransaction (d : TransactionDefinition) (r : ReqResult String) :
    Except ClientError String :=
  match atoi d.Version with
  | none => .error .localErr
  | some _ =>
      match r with
      | .fail => .error .transportErr
      | .resp env id =>
          if env.OK then .ok id else .error (.apiErr env.StatusCode)

/-- `QueryTransactions`, response side: the decoded `Results` slice may be
nil (`none`); a nil slice is replaced by an empty non-nil one. -/
def queryTransactionsResult (r : ReqResult (Option (List Transaction))) :
    Except ClientError (Option (List Transaction)) :=
  match r with
  | .fail => .error .transportErr
  | .resp env results =>
      if env.OK then
        .ok (match results with
          | none => some []
          | some l => some l)
      else .error (.apiErr env.StatusCode)

/-- One element of the `POST /transaction_bulk` response list
(`struct { ID string }`). -/
structure BulkIdEntry where
  ID : String
deriving DecidableEq

/-- `BulkCreateTransactions`, response side: on an `ok` envelope the ids of
the response entries are returned in order, regardless of how their number
compares with the number of submitted definitions. -/
def BulkCreateTransactions (txs : List TransactionDefinition)
    (r : ReqResult (List BulkIdEntry)) : Except ClientError (List String) :=
  match r with
  | .fail => .error .transportErr
  | .resp env entries =>
      if env.OK then .ok (entries.map (fun e => e.ID))
      else .error (.apiErr env.StatusCode)

/-- `Client.Contract` (the contract getter), response side
(`GET /contract/{id}`). -/
def GetContract (id : String) (r : ReqResult Contract) :
    Except ClientError Contract :=
  match r with
  | .fail => .error .transportErr
  | .resp env c => if env.OK then .ok c else .error (.apiErr env.StatusCode)

/-- `QueryContracts`, response side, with the same nil-normalization as
`queryTransactionsResult`. -/
def queryContractsResult (r : ReqResult (Option (List Contract))) :
    Except ClientError (Option (List Contract)) :=
  match r with
  | .fail => .error .transportErr
  | .resp env results =>
      if env.OK then
        .ok (match results with
          | none => some []
          | some l => some l)
      else .error (.apiErr env.StatusCode)

/-- `UpdateContract`, response side (`PUT /contract/{id}`). -/
def UpdateContract (id : String) (update : ContractDefinition)
    (r : ReqResult Unit) : Except ClientError Unit :=
  match r with
  | .fail => .error .transportErr
  | .resp env _ => if env.OK then .ok () else .error (.apiErr env.StatusCode)

/-- `DeleteContract`, response side (`DELETE /contract/{id}`). -/
def DeleteContract (id : String) (r : ReqResult Unit) :
    Except ClientError Unit :=
  match r with
  | .fail => .error .transportErr
  | .resp env _ => if env.OK then .ok () else .error (.apiErr env.StatusCode)

/-- The definition `CreateContract` serializes and sends: `none` on a local
validation error, otherwise the definition with `Version` rewritten to
`"3"` when the parsed version is non-positive. -/
def createContractSent (d : ContractDefinition) :
    Option ContractDefinition :=
  match atoi d.Version with
  | none => none
  | some v => some (if v ≤ 0 then { d with Version := "3" } else d)

/-- The caller's contract definition after `CreateContract` returns. -/
def afterCreateContract (d : ContractDefinition) : ContractDefinition :=
  (createContractSent d).getD d

/-- `CreateContract`, end to end (`POST /contract`). -/
def CreateContract (d : ContractDefinition) (r : ReqResult Unit) :
    Except ClientError Unit :=
  match atoi d.Version with
  | none => .error .localErr
  | some _ =>
      match r with
      | .fail => .error .transportErr
      | .resp env _ =>
          if env.OK then .ok () else .error (.apiErr env.StatusCode)

/-! ## Lemmas about the rendered query string -/

theorem renderEntry_ne_nil (p : String × String) : renderEntry p ≠ [] := by
  simp [renderEntry]

theorem renderAll_single (p : String × String) :
    renderAll [p] = renderEntry p := by
  simp [renderAll, List.dropLast_concat]

theorem renderAll_cons (p : String × String) (l : List (String × String))
    (h : l ≠ []) :
    renderAll (p :: l) = renderEntry p ++ '&' :: renderAll l := by
  obtain ⟨q, l', rfl⟩ := List.exists_cons_of_ne_nil h
  simp only [renderAll, List.map_cons, List.flatten_cons]
  rw [List.dropLast_append_of_ne_nil _ (by simp)]
  simp

theorem renderAll_head (p : String × String) (l : List (String × String)) :
    ∃ t, renderAll (p :: l) = renderEntry p ++ t := by
  cases l with
  | nil => exact ⟨[], by simp [renderAll_single]⟩
  | cons q l' =>
      exact ⟨'&' :: renderAll (q :: l'), renderAll_cons p (q :: l') (by simp)⟩

theorem renderAll_ne_nil (p : String × String) (l : List (String × String)) :
    renderAll (p :: l) ≠ [] := by
  obtain ⟨t, ht⟩ := renderAll_head p l
  rw [ht]
  intro hc
  exact renderEntry_ne_nil p (List.append_eq_nil.mp hc).1

theorem mem_renderAll (l : List (String × String)) (p : String × String)
    (h : p ∈ l) : ∃ u v, renderAll l = u ++ renderEntry p ++ v := by
  induction l with
  | nil => cases h
  | cons q l' ih =>
      rcases List.mem_cons.mp h with hq | hl
      · obtain ⟨t, ht⟩ := renderAll_head q l'
        exact ⟨[], t, by rw [ht, hq]; simp⟩
      · have hne : l' ≠ [] := List.ne_nil_of_mem hl
        obtain ⟨u, v, huv⟩ := ih hl
        refine ⟨renderEntry q ++ '&' :: u, v, ?_⟩
        rw [renderAll_cons q l' hne, huv]
        simp

theorem getLast?_renderEntry (p : String × String)
    (h : p.2.data.getLast? ≠ some '&') :
    (renderEntry p).getLast? ≠ some '&' := by
  unfold renderEntry
  cases hv : p.2.data with
  | nil =>
      rw [show p.1.data ++ '=' :: ([] : List Char) = p.1.data ++ ['='] from rfl,
        List.getLast?_concat]
      decide
  | cons c cs =>
      rw [List.getLast?_append_of_ne_nil _ (by simp),
        show ('=' :: (c :: cs)) = ['='] ++ (c :: cs) from rfl,
        List.getLast?_append_of_ne_nil _ (by simp), ← hv]
      exact h

theorem getLast?_renderAll (l : List (String × String)) (hne : l ≠ [])
    (h : ∀ p ∈ l, (renderEntry p).getLast? ≠ some '&') :
    (renderAll l).getLast? ≠ some '&' := by
  induction l with
  | nil => exact absurd rfl hne
  | cons p l' ih =>
      cases l' with
      | nil =>
          rw [renderAll_single]
          exact h p (by simp)
      | cons q l'' =>
          rw [renderAll_cons p (q :: l'') (by simp),
            List.getLast?_append_of_ne_nil _ (by simp),
            show ('&' :: renderAll (q :: l'')) = ['&'] ++ renderAll (q :: l'')
              from rfl,
            List.getLast?_append_of_ne_nil _ (renderAll_ne_nil q l'')]
          exact ih (by simp) (fun p hp => h p (List.mem_cons_of_mem _ hp))

theorem digitChar_ne_amp (m : Nat) : digitChar m ≠ '&' := by
  unfold digitChar
  split <;> decide

theorem natDigitsCore_getLast (fuel n : Nat) (acc : List Char)
    (h : acc ≠ []) : (natDigitsCore fuel n acc).getLast? = acc.getLast? := by
  induction fuel generalizing n acc with
  | zero => rfl
  | succ fuel ih =>
      unfold natDigitsCore
      split
      · obtain ⟨c, cs, rfl⟩ := List.exists_cons_of_ne_nil h
        rw [show (digitChar n :: c :: cs) = [digitChar n] ++ (c :: cs) from rfl,
          List.getLast?_append_of_ne_nil _ (by simp)]
      · rw [ih _ _ (by simp),
          show (digitChar (n % 10) :: acc) = [digitChar (n % 10)] ++ acc
            from rfl,
          List.getLast?_append_of_ne_nil _ h]

theorem natDigits_getLast (n : Nat) :
    (natDigits n).getLast? = some (digitChar (n % 10)) := by
  unfold natDigits natDigitsCore
  split
  · next h => simp [Nat.mod_eq_of_lt h]
  · rw [natDigitsCore_getLast _ _ _ (by simp)]
    rfl

theorem itoa_getLast_ne_amp (n : Int) : (itoa n).data.getLast? ≠ some '&' := by
  unfold itoa
  split
  · rw [String.data_append]
    cases hd : natDigits n.natAbs with
    | nil => simp [hd, natDigits_getLast n.natAbs] at *
    | cons c cs =>
        rw [show ("-" : String).data ++ (⟨c :: cs⟩ : String).data =
          ("-" : String).data ++ (c :: cs) from rfl,
          List.getLast?_append_of_ne_nil _ (by simp), ← hd,
          natDigits_getLast]
        simp [digitChar_ne_amp]
  · rw [show (⟨natDigits n.toNat⟩ : String).data = natDigits n.toNat from rfl,
      natDigits_getLast]
    simp [digitChar_ne_amp]

/-- Case analysis on membership in the query map. -/
theorem mem_luceneEntries_cases (q : QueryOptions) (p : String × String)
    (h : p ∈ luceneEntries q) :
    p = ("limit", itoa (if q.Limit > 0 then q.Limit else 10)) ∨
    p = ("offset", itoa (if q.Offset > 0 then q.Offset else 0)) ∨
    (q.QueryString ≠ "" ∧ p = ("q", q.QueryString)) ∨
    (q.SortBy ≠ "" ∧ p = ("sort", q.SortBy)) := by
  unfold luceneEntries at h
  simp only [List.mem_append, List.mem_cons, List.not_mem_nil, or_false] at h
  rcases h with ((h | h) | h) | h
  · exact Or.inl h
  · exact Or.inr (Or.inl h)
  · by_cases hq : q.QueryString = ""
    · rw [if_pos hq] at h
      simp at h
    · rw [if_neg hq] at h
      simp at h
      exact Or.inr (Or.inr (Or.inl ⟨hq, h⟩))
  · by_cases hs : q.SortBy = ""
    · rw [if_pos hs] at h
      simp at h
    · rw [if_neg hs] at h
      simp at h
      exact Or.inr (Or.inr (Or.inr ⟨hs, h⟩))

/-- Every key in the query map is one of the four literal keys. -/
theorem key_of_mem_luceneEntries (q : QueryOptions) (p : String × String)
    (h : p ∈ luceneEntries q) :
    p.1 = "limit" ∨ p.1 = "offset" ∨ p.1 = "q" ∨ p.1 = "sort" := by
  rcases mem_luceneEntries_cases q p h with rfl | rfl | ⟨_, rfl⟩ | ⟨_, rfl⟩ <;>
    simp

/-- Every value in the query map ends in a non-`&` character, provided the
caller-supplied search and sort strings do. -/
theorem value_of_mem_luceneEntries (q : QueryOptions) (p : String × String)
    (hq : q.QueryString.data.getLast? ≠ some '&')
    (hs : q.SortBy.data.getLast? ≠ some '&')
    (h : p ∈ luceneEntries q) : p.2.data.getLast? ≠ some '&' := by
  rcases mem_luceneEntries_cases q p h with rfl | rfl | ⟨_, rfl⟩ | ⟨_, rfl⟩
  · exact itoa_getLast_ne_amp _
  · exact itoa_getLast_ne_amp _
  · exact hq
  · exact hs

/-! ## Helper facts for the claim theorems -/

theorem renderEntry_data (k v : String) :
    renderEntry (k, v) = (k ++ "=" ++ v).data := by
  show k.data ++ '=' :: v.data = _
  rw [String.data_append, String.data_append]
  show _ = (k.data ++ ['=']) ++ v.data
  simp

theorem goFrac6_eq (us : Nat) (h : us < 1000000) :
    goFrac6 us =
      if us = 0 then ""
      else "." ++ (⟨dropTrailingZeros (sixDigits us)⟩ : String) := by
  by_cases h0 : us = 0
  · subst h0
    decide
  · rw [if_neg h0]
    have hne : dropTrailingZeros (sixDigits us) ≠ [] := by
      intro hc
      unfold dropTrailingZeros at hc
      rw [List.reverse_eq_nil_iff] at hc
      have hall := List.dropWhile_eq_nil_iff.mp hc
      have hd : ∀ x ∈ sixDigits us, x = '0' := by
        intro x hx
        simpa using hall x (List.mem_reverse.mpr hx)
      have hzero : ∀ m : Nat, m < 10 → digitChar m = '0' → m = 0 := by
        intro m hm
        interval_cases m <;> decide
      have h1 : us / 100000 % 10 = 0 :=
        hzero _ (Nat.mod_lt _ (by omega)) (hd _ (by simp [sixDigits]))
      have h2 : us / 10000 % 10 = 0 :=
        hzero _ (Nat.mod_lt _ (by omega)) (hd _ (by simp [sixDigits]))
      have h3 : us / 1000 % 10 = 0 :=
        hzero _ (Nat.mod_lt _ (by omega)) (hd _ (by simp [sixDigits]))
      have h4 : us / 100 % 10 = 0 :=
        hzero _ (Nat.mod_lt _ (by omega)) (hd _ (by simp [sixDigits]))
      have h5 : us / 10 % 10 = 0 :=
        hzero _ (Nat.mod_lt _ (by omega)) (hd _ (by simp [sixDigits]))
      have h6 : us % 10 = 0 :=
        hzero _ (Nat.mod_lt _ (by omega)) (hd _ (by simp [sixDigits]))
      omega
    obtain ⟨c, cs, hc⟩ := List.exists_cons_of_ne_nil hne
    unfold goFrac6
    rw [hc]

/-! ## Sample values used by witnesses and counterexamples -/

def credsSha : Credentials := ⟨"acct-id", "secret-key", "client-id", some sha256Algo⟩

def credsNilAlgo : Credentials := ⟨"acct-id", "secret-key", "client-id", none⟩

def qZero : QueryOptions := ⟨"", "", 0, 0⟩

def qAmp : QueryOptions := ⟨"a&", "", 0, 0⟩

def txDefZero : TransactionDefinition := ⟨"0", "pay", "{}", "tag1"⟩

def txDefPos : TransactionDefinition := ⟨"2", "pay", "{}", "tag1"⟩

def txDefBad : TransactionDefinition := ⟨"abc", "pay", "{}", "tag1"⟩

def ctrDefNeg : ContractDefinition :=
  ⟨"-1", "pay", "serial", "img", "cmd", "active", [], [], [], 0, "", ""⟩

def ctrDefPos : ContractDefinition :=
  ⟨"7", "pay", "serial", "img", "cmd", "active", [], [], [], 0, "", ""⟩

def ctrDefBad : ContractDefinition :=
  ⟨"x", "pay", "serial", "img", "cmd", "active", [], [], [], 0, "", ""⟩

def env404 : HTTPResponse := ⟨false, 404⟩

def envOK : HTTPResponse := ⟨true, 200⟩

def txSample : Transaction :=
  ⟨"dcrn", 1, ⟨"tid", "pay", "chain", "tag", "123", "b1", ""⟩, "{}", ⟨"f", "s"⟩⟩

def ctrSample : Contract :=
  ⟨"dcrn", "3", "cid", "name", "active", [], "custom", "go", "transaction",
   "code", "bucket", "path", false⟩

/-! ## Claim theorems -/

/-- C1: for every method, resource path, timestamp, content type and body,
the Authorization header value equals `DC1-HMAC-SHA256 <clientId>:<sig>`
with `sig` the HMAC-SHA256, keyed by the secret key, of the canonical string
`UPPERCASE(method) + "\n" + resourcePath + "\n" + accountId + "\n" +
timestamp + "\n" + contentType + "\n" + base64(SHA256(body))`, a nil body
hashed as the zero-length byte sequence (stated for credentials whose
signing algorithm is the SHA-256 the header name announces). -/
theorem c1_authorization_header (creds : Credentials)
    (halgo : creds.SigningAlgorithm = some sha256Algo)
    (method resource contentType timestamp : String)
    (body : Option (List Nat)) :
    authorizationHeader creds method resource contentType timestamp body =
      some (specAuthorizationValue creds.ClientID creds.DragonChainID
        creds.APIKey method resource timestamp contentType body) := by
  unfold authorizationHeader specAuthorizationValue specCanonicalString
  rw [halgo]
  cases body <;> rfl

theorem c1_authorization_header_witness :
    credsSha.SigningAlgorithm = some sha256Algo ∧
    authorizationHeader credsSha "get" "/transaction" "application/json"
        "2019-01-02T03-04-05Z" none =
      some (specAuthorizationValue credsSha.ClientID credsSha.DragonChainID
        credsSha.APIKey "get" "/transaction" "2019-01-02T03-04-05Z"
        "application/json" none) :=
  ⟨rfl, c1_authorization_header credsSha rfl "get" "/transaction"
    "application/json" "2019-01-02T03-04-05Z" none⟩

/-- C2: the claim states that a nil `SigningAlgorithm` falls back to the
default SHA-256 and the signing step cannot fail.  The fallback exists only
in `hmacSign`, which nothing calls; `authorizationHeader` — the function
`doRequest` actually uses — hands the nil algorithm straight to the HMAC
construction, which aborts (modelled as `none`) instead of falling back. -/
theorem c2_nil_algorithm_code_bug :
    authorizationHeader credsNilAlgo "GET" "/transaction" "application/json"
        "2019-01-02T03-04-05Z" none = none ∧
    hmacSign credsNilAlgo "message" =
      hmacBytes sha256 64 (bytesOfString credsNilAlgo.APIKey)
        (bytesOfString "message") :=
  ⟨rfl, rfl⟩

/-- C3 (counterexample): at microsecond count zero the produced timestamp is
`2019-01-02T03-04-05Z` — hyphens between hour, minute and second and no
fractional digits at all — which differs from the claimed ISO-8601 form with
colons and exactly six fractional digits. -/
theorem c3_counterexample :
    timestampHeader 2019 1 2 3 4 5 0 = "2019-01-02T03-04-05Z" ∧
    timestampHeader 2019 1 2 3 4 5 0 ≠ isoTimestampSpec 2019 1 2 3 4 5 0 := by
  constructor
  · decide
  · decide

/-- C3 (amended): every timestamp `doRequest` builds is the Go layout
`2006-01-02T15-04-05.999999` plus a literal `Z`: hyphens separate hour,
minute and second, and the microsecond fraction keeps at most six digits,
trailing zeros trimmed, the dot omitted when the fraction is zero. -/
theorem c3_timestamp_format (y mo d h mi s us : Nat) (hus : us < 1000000) :
    timestampHeader y mo d h mi s us = amendedTimestampSpec y mo d h mi s us := by
  unfold timestampHeader amendedTimestampSpec
  rw [goFrac6_eq us hus]

theorem c3_timestamp_format_witness :
    123400 < 1000000 ∧
    timestampHeader 2019 1 2 15 4 5 123400 =
      amendedTimestampSpec 2019 1 2 15 4 5 123400 :=
  ⟨by decide, c3_timestamp_format 2019 1 2 15 4 5 123400 (by decide)⟩

/-- C4: `QueryContracts` does address `/contract?...`, but `QueryTransactions`
addresses `/transation?...` — the source misspells the `/transaction` path
the claim (and the sibling endpoints) use. -/
theorem c4_query_paths_code_bug :
    queryTransactionsUrl qZero (luceneEntries qZero) =
      "/transation?limit=10&offset=0" ∧
    queryContractsUrl qZero (luceneEntries qZero) =
      "/contract?limit=10&offset=0" ∧
    ("/transation?limit=10&offset=0" : String) ≠
      "/transaction?limit=10&offset=0" := by
  refine ⟨by decide, by decide, by decide⟩

/-- C5 (counterexample): with `QueryString = "a&"` and the iteration order
that visits `q` last (a legal order — it is the map's own entry list), the
built query string is `limit=10&offset=0&q=a&`, which ends with `&`,
falsifying the claim that the built string never ends with `&`. -/
theorem c5_counterexample :
    luceneQueryParams qAmp (luceneEntries qAmp) = "limit=10&offset=0&q=a&" ∧
    (luceneQueryParams qAmp (luceneEntries qAmp)).data.getLast? = some '&' := by
  constructor
  · decide
  · decide

/-- C5 (amended): for every `QueryOptions` and every map-iteration order,
the built query string contains `limit=10` when `Limit ≤ 0` and `limit=N`
when `Limit = N > 0`, contains `offset=0` when `Offset ≤ 0` and `offset=N`
when `Offset = N > 0`, has a `q` component iff `QueryString` is non-empty
and a `sort` component iff `Sort` is non-empty, and never begins with `&` or
`?`; it never ends with `&` provided neither `QueryString` nor `Sort` itself
ends with `&` (the amendment: a caller value ending in `&` does end the
built string with `&` when iterated last). -/
theorem c5_query_params (q : QueryOptions) (order : List (String × String))
    (hperm : order.Perm (luceneEntries q)) :
    (q.Limit ≤ 0 → ∃ u v, (luceneQueryParams q order).data =
      u ++ ("limit=10" : String).data ++ v) ∧
    (0 < q.Limit → ∃ u v, (luceneQueryParams q order).data =
      u ++ ("limit=" ++ itoa q.Limit).data ++ v) ∧
    (q.Offset ≤ 0 → ∃ u v, (luceneQueryParams q order).data =
      u ++ ("offset=0" : String).data ++ v) ∧
    (0 < q.Offset → ∃ u v, (luceneQueryParams q order).data =
      u ++ ("offset=" ++ itoa q.Offset).data ++ v) ∧
    ((∃ v, ("q", v) ∈ order) ↔ q.QueryString ≠ "") ∧
    ((∃ v, ("sort", v) ∈ order) ↔ q.SortBy ≠ "") ∧
    (∀ c, (luceneQueryParams q order).data.head? = some c →
      c ≠ '&' ∧ c ≠ '?') ∧
    (q.QueryString.data.getLast? ≠ some '&' →
      q.SortBy.data.getLast? ≠ some '&' →
      (luceneQueryParams q order).data.getLast? ≠ some '&') := by
  have hord : order ≠ [] := by
    have hm : ("limit", itoa (if q.Limit > 0 then q.Limit else 10)) ∈ order :=
      hperm.mem_iff.mpr (by simp [luceneEntries])
    exact List.ne_nil_of_mem hm
  refine ⟨?_, ?_, ?_, ?_, ?_, ?_, ?_, ?_⟩
  · intro hle
    have hlt : ¬ q.Limit > 0 := by omega
    have hmem : ("limit", itoa 10) ∈ luceneEntries q := by
      have : ("limit", itoa (if q.Limit > 0 then q.Limit else 10)) ∈
          luceneEntries q := by simp [luceneEntries]
      rwa [if_neg hlt] at this
    obtain ⟨u, v, huv⟩ := mem_renderAll order _ (hperm.mem_iff.mpr hmem)
    refine ⟨u, v, ?_⟩
    show renderAll order = _
    rw [huv, renderEntry_data,
      show ("limit" ++ "=" ++ itoa 10 : String) = "limit=10" from by decide]
  · intro hlt
    have hmem : ("limit", itoa q.Limit) ∈ luceneEntries q := by
      have : ("limit", itoa (if q.Limit > 0 then q.Limit else 10)) ∈
          luceneEntries q := by simp [luceneEntries]
      rwa [if_pos hlt] at this
    obtain ⟨u, v, huv⟩ := mem_renderAll order _ (hperm.mem_iff.mpr hmem)
    refine ⟨u, v, ?_⟩
    show renderAll order = _
    rw [huv, renderEntry_data,
      show ("limit" : String) ++ "=" = "limit=" from by decide]
  · intro hle
    have hlt : ¬ q.Offset > 0 := by omega
    have hmem : ("offset", itoa 0) ∈ luceneEntries q := by
      have : ("offset", itoa (if q.Offset > 0 then q.Offset else 0)) ∈
          luceneEntries q := by simp [luceneEntries]
      rwa [if_neg hlt] at this
    obtain ⟨u, v, huv⟩ := mem_renderAll order _ (hperm.mem_iff.mpr hmem)
    refine ⟨u, v, ?_⟩
    show renderAll order = _
    rw [huv, renderEntry_data,
      show ("offset" ++ "=" ++ itoa 0 : String) = "offset=0" from by decide]
  · intro hlt
    have hmem : ("offset", itoa q.Offset) ∈ luceneEntries q := by
      have : ("offset", itoa (if q.Offset > 0 then q.Offset else 0)) ∈
          luceneEntries q := by simp [luceneEntries]
      rwa [if_pos hlt] at this
    obtain ⟨u, v, huv⟩ := mem_renderAll order _ (hperm.mem_iff.mpr hmem)
    refine ⟨u, v, ?_⟩
    show renderAll order = _
    rw [huv, renderEntry_data,
      show ("offset" : String) ++ "=" = "offset=" from by decide]
  · constructor
    · rintro ⟨v, hv⟩
      rcases mem_luceneEntries_cases q _ (hperm.mem_iff.mp hv) with
        h | h | ⟨hne, _⟩ | ⟨_, h⟩
      · have h1 : ("q" : String) = "limit" := congrArg Prod.fst h
        exact absurd h1 (by decide)
      · have h1 : ("q" : String) = "offset" := congrArg Prod.fst h
        exact absurd h1 (by decide)
      · exact hne
      · have h1 : ("q" : String) = "sort" := congrArg Prod.fst h
        exact absurd h1 (by decide)
    · intro hne
      exact ⟨q.QueryString, hperm.mem_iff.mpr (by simp [luceneEntries, hne])⟩
  · constructor
    · rintro ⟨v, hv⟩
      rcases mem_luceneEntries_cases q _ (hperm.mem_iff.mp hv) with
        h | h | ⟨_, h⟩ | ⟨hne, _⟩
      · have h1 : ("sort" : String) = "limit" := congrArg Prod.fst h
        exact absurd h1 (by decide)
      · have h1 : ("sort" : String) = "offset" := congrArg Prod.fst h
        exact absurd h1 (by decide)
      · have h1 : ("sort" : String) = "q" := congrArg Prod.fst h
        exact absurd h1 (by decide)
      · exact hne
    · intro hne
      exact ⟨q.SortBy, hperm.mem_iff.mpr (by simp [luceneEntries, hne])⟩
  · obtain ⟨p, rest, rfl⟩ := List.exists_cons_of_ne_nil hord
    intro c hc
    obtain ⟨t, ht⟩ := renderAll_head p rest
    rw [show (luceneQueryParams q (p :: rest)).data = renderAll (p :: rest)
        from rfl, ht,
      List.head?_append_of_ne_nil _ (renderEntry_ne_nil p)] at hc
    have hp : p ∈ luceneEntries q := hperm.mem_iff.mp (by simp)
    unfold renderEntry at hc
    rcases key_of_mem_luceneEntries q p hp with hk | hk | hk | hk
    · rw [hk, List.head?_append_of_ne_nil _ (by decide),
        show ("limit" : String).data.head? = some 'l' from rfl] at hc
      cases hc
      exact ⟨by decide, by decide⟩
    · rw [hk, List.head?_append_of_ne_nil _ (by decide),
        show ("offset" : String).data.head? = some 'o' from rfl] at hc
      cases hc
      exact ⟨by decide, by decide⟩
    · rw [hk, List.head?_append_of_ne_nil _ (by decide),
        show ("q" : String).data.head? = some 'q' from rfl] at hc
      cases hc
      exact ⟨by decide, by decide⟩
    · rw [hk, List.head?_append_of_ne_nil _ (by decide),
        show ("sort" : String).data.head? = some 's' from rfl] at hc
      cases hc
      exact ⟨by decide, by decide⟩
  · intro hqs hss
    show (renderAll order).getLast? ≠ some '&'
    exact getLast?_renderAll order hord (fun p hp =>
      getLast?_renderEntry p (value_of_mem_luceneEntries q p hqs hss
        (hperm.mem_iff.mp hp)))

theorem c5_query_params_witness :
    (luceneEntries qAmp).Perm (luceneEntries qAmp) ∧
    qAmp.Limit ≤ 0 ∧
    (∃ u v, (luceneQueryParams qAmp (luceneEntries qAmp)).data =
      u ++ ("limit=10" : String).data ++ v) ∧
    ((∃ v, ("q", v) ∈ luceneEntries qAmp) ↔ qAmp.QueryString ≠ "") :=
  ⟨List.Perm.refl _, by decide,
   (c5_query_params qAmp (luceneEntries qAmp) (List.Perm.refl _)).1 (by decide),
   (c5_query_params qAmp (luceneEntries qAmp) (List.Perm.refl _)).2.2.2.2.1⟩

/-- C6: a definition whose version string parses to a non-positive integer
is sent with `Version` rewritten to `"1"` (transactions) or `"3"`
(contracts); a version string that does not parse yields a local validation
error and no request is issued (the sent definition is `none` and the
operation fails with the local error whatever the network would answer). -/
theorem c6_version_validation :
    (∀ d : TransactionDefinition, ∀ n : Int, atoi d.Version = some n →
      n ≤ 0 → createTransactionSent d = some { d with Version := "1" }) ∧
    (∀ d : ContractDefinition, ∀ n : Int, atoi d.Version = some n →
      n ≤ 0 → createContractSent d = some { d with Version := "3" }) ∧
    (∀ d : TransactionDefinition, atoi d.Version = none →
      createTransactionSent d = none ∧
      ∀ r, CreateTransaction d r = .error .localErr) ∧
    (∀ d : ContractDefinition, atoi d.Version = none →
      createContractSent d = none ∧
      ∀ r, CreateContract d r = .error .localErr) := by
  refine ⟨?_, ?_, ?_, ?_⟩
  · intro d n h hle
    unfold createTransactionSent
    rw [h]
    simp [hle]
  · intro d n h hle
    unfold createContractSent
    rw [h]
    simp [hle]
  · intro d h
    refine ⟨?_, fun r => ?_⟩
    · unfold createTransactionSent
      rw [h]
    · unfold CreateTransaction
      rw [h]
  · intro d h
    refine ⟨?_, fun r => ?_⟩
    · unfold createContractSent
      rw [h]
    · unfold CreateContract
      rw [h]

theorem c6_version_validation_witness :
    atoi txDefZero.Version = some 0 ∧ (0 : Int) ≤ 0 ∧
    createTransactionSent txDefZero = some { txDefZero with Version := "1" } ∧
    atoi ctrDefNeg.Version = some (-1) ∧ (-1 : Int) ≤ 0 ∧
    createContractSent ctrDefNeg = some { ctrDefNeg with Version := "3" } ∧
    atoi txDefBad.Version = none ∧
    createTransactionSent txDefBad = none ∧
    CreateTransaction txDefBad .fail = .error .localErr ∧
    atoi ctrDefBad.Version = none ∧
    createContractSent ctrDefBad = none :=
  ⟨by decide, by decide,
   c6_version_validation.1 txDefZero 0 (by decide) (by decide),
   by decide, by decide,
   c6_version_validation.2.1 ctrDefNeg (-1) (by decide) (by decide),
   by decide,
   (c6_version_validation.2.2.1 txDefBad (by decide)).1,
   (c6_version_validation.2.2.1 txDefBad (by decide)).2 .fail,
   by decide,
   (c6_version_validation.2.2.2 ctrDefBad (by decide)).1⟩

/-- C7: for every operation, when the inquirer delivers a decoded envelope
with `ok = false`, the operation returns the API error carrying exactly the
envelope's status code (and no underlying cause — the `apiErr` constructor
carries nothing else). -/
theorem c7_api_error_status (env : HTTPResponse) (hok : env.OK = false) :
    (∀ id tx, GetTransaction id (.resp env tx) =
      .error (.apiErr env.StatusCode)) ∧
    (∀ d n s, atoi d.Version = some n →
      CreateTransaction d (.resp env s) = .error (.apiErr env.StatusCode)) ∧
    (∀ res, queryTransactionsResult (.resp env res) =
      .error (.apiErr env.StatusCode)) ∧
    (∀ txs entries, BulkCreateTransactions txs (.resp env entries) =
      .error (.apiErr env.StatusCode)) ∧
    (∀ id c, GetContract id (.resp env c) =
      .error (.apiErr env.StatusCode)) ∧
    (∀ d : ContractDefinition, ∀ n, atoi d.Version = some n →
      CreateContract d (.resp env ()) = .error (.apiErr env.StatusCode)) ∧
    (∀ res, queryContractsResult (.resp env res) =
      .error (.apiErr env.StatusCode)) ∧
    (∀ id u, UpdateContract id u (.resp env ()) =
      .error (.apiErr env.StatusCode)) ∧
    (∀ id, DeleteContract id (.resp env ()) =
      .error (.apiErr env.StatusCode)) := by
  refine ⟨?_, ?_, ?_, ?_, ?_, ?_, ?_, ?_, ?_⟩
  · intro id tx
    simp [GetTransaction, hok]
  · intro d n s h
    unfold CreateTransaction
    rw [h]
    simp [hok]
  · intro res
    simp [queryTransactionsResult, hok]
  · intro txs entries
    simp [BulkCreateTransactions, hok]
  · intro id c
    simp [GetContract, hok]
  · intro d n h
    unfold CreateContract
    rw [h]
    simp [hok]
  · intro res
    simp [queryContractsResult, hok]
  · intro id u
    simp [UpdateContract, hok]
  · intro id
    simp [DeleteContract, hok]

theorem c7_api_error_status_witness :
    env404.OK = false ∧
    GetTransaction "tid" (.resp env404 txSample) = .error (.apiErr 404) ∧
    CreateTransaction txDefZero (.resp env404 "tid") =
      .error (.apiErr 404) ∧
    queryTransactionsResult (.resp env404 none) = .error (.apiErr 404) ∧
    BulkCreateTransactions [txDefZero] (.resp env404 [⟨"a"⟩]) =
      .error (.apiErr 404) ∧
    GetContract "cid" (.resp env404 ctrSample) = .error (.apiErr 404) ∧
    CreateContract ctrDefNeg (.resp env404 ()) = .error (.apiErr 404) ∧
    queryContractsResult (.resp env404 none) = .error (.apiErr 404) ∧
    UpdateContract "cid" ctrDefPos (.resp env404 ()) =
      .error (.apiErr 404) ∧
    DeleteContract "cid" (.resp env404 ()) = .error (.apiErr 404) :=
  ⟨rfl,
   (c7_api_error_status env404 rfl).1 "tid" txSample,
   (c7_api_error_status env404 rfl).2.1 txDefZero 0 "tid" (by decide),
   (c7_api_error_status env404 rfl).2.2.1 none,
   (c7_api_error_status env404 rfl).2.2.2.1 [txDefZero] [⟨"a"⟩],
   (c7_api_error_status env404 rfl).2.2.2.2.1 "cid" ctrSample,
   (c7_api_error_status env404 rfl).2.2.2.2.2.1 ctrDefNeg (-1) (by decide),
   (c7_api_error_status env404 rfl).2.2.2.2.2.2.1 none,
   (c7_api_error_status env404 rfl).2.2.2.2.2.2.2.1 "cid" ctrDefPos,
   (c7_api_error_status env404 rfl).2.2.2.2.2.2.2.2 "cid"⟩

/-- C8: on an `ok` envelope, `BulkCreateTransactions` returns exactly the
response's id list, in order, with no error — also when that list is
shorter than the list of submitted definitions. -/
theorem c8_bulk_ids (txs : List TransactionDefinition) (env : HTTPResponse)
    (hok : env.OK = true) (entries : List BulkIdEntry) :
    BulkCreateTransactions txs (.resp env entries) =
      .ok (entries.map fun e => e.ID) := by
  simp [BulkCreateTransactions, hok]

theorem c8_bulk_ids_witness :
    envOK.OK = true ∧
    BulkCreateTransactions [txDefZero, txDefPos, txDefBad]
        (.resp envOK [⟨"id-a"⟩, ⟨"id-b"⟩]) = .ok ["id-a", "id-b"] :=
  ⟨rfl, c8_bulk_ids [txDefZero, txDefPos, txDefBad] envOK rfl
    [⟨"id-a"⟩, ⟨"id-b"⟩]⟩

/-- C9: on an `ok` envelope whose `Results` field is null (absent),
`QueryTransactions` and `QueryContracts` return an empty, non-nil list with
no error; no outcome of either operation ever carries a nil list. -/
theorem c9_null_results_normalized (env : HTTPResponse)
    (hok : env.OK = true) :
    (queryTransactionsResult (.resp env none) =
        .ok (some ([] : List Transaction)) ∧
      ∀ r, queryTransactionsResult r ≠ .ok none) ∧
    (queryContractsResult (.resp env none) =
        .ok (some ([] : List Contract)) ∧
      ∀ r, queryContractsResult r ≠ .ok none) := by
  refine ⟨⟨by simp [queryTransactionsResult, hok], ?_⟩,
    ⟨by simp [queryContractsResult, hok], ?_⟩⟩
  · intro r h
    cases r with
    | fail => simp [queryTransactionsResult] at h
    | resp env2 res =>
        by_cases he : env2.OK <;> cases res <;>
          simp [queryTransactionsResult, he] at h
  · intro r h
    cases r with
    | fail => simp [queryContractsResult] at h
    | resp env2 res =>
        by_cases he : env2.OK <;> cases res <;>
          simp [queryContractsResult, he] at h

theorem c9_null_results_normalized_witness :
    envOK.OK = true ∧
    queryTransactionsResult (.resp envOK none) =
      .ok (some ([] : List Transaction)) ∧
    queryContractsResult (.resp envOK none) =
      .ok (some ([] : List Contract)) :=
  ⟨rfl, (c9_null_results_normalized envOK rfl).1.1,
   (c9_null_results_normalized envOK rfl).2.1⟩

/-- C10: `CreateTransaction` and `CreateContract` mutate the caller's
definition in place: once serialization is reached (the version string
parsed), a non-positive parsed version leaves the caller's structure with
`Version = "1"` (transactions) or `"3"` (contracts) and every other field
unchanged, while a positive parsed version leaves the structure entirely
untouched. -/
theorem c10_definition_mutation :
    (∀ d : TransactionDefinition, ∀ n : Int, atoi d.Version = some n →
      (n ≤ 0 → afterCreateTransaction d = { d with Version := "1" } ∧
        (afterCreateTransaction d).TxnType = d.TxnType ∧
        (afterCreateTransaction d).Payload = d.Payload ∧
        (afterCreateTransaction d).Tag = d.Tag) ∧
      (0 < n → afterCreateTransaction d = d)) ∧
    (∀ d : ContractDefinition, ∀ n : Int, atoi d.Version = some n →
      (n ≤ 0 → afterCreateContract d = { d with Version := "3" }) ∧
      (0 < n → afterCreateContract d = d)) := by
  constructor
  · intro d n h
    constructor
    · intro hle
      have he : afterCreateTransaction d = { d with Version := "1" } := by
        unfold afterCreateTransaction createTransactionSent
        rw [h]
        simp [hle]
      exact ⟨he, by rw [he], by rw [he], by rw [he]⟩
    · intro hpos
      unfold afterCreateTransaction createTransactionSent
      rw [h]
      simp [show ¬ n ≤ 0 by omega]
  · intro d n h
    constructor
    · intro hle
      unfold afterCreateContract createContractSent
      rw [h]
      simp [hle]
    · intro hpos
      unfold afterCreateContract createContractSent
      rw [h]
      simp [show ¬ n ≤ 0 by omega]

theorem c10_definition_mutation_witness :
    atoi txDefZero.Version = some 0 ∧
    afterCreateTransaction txDefZero = { txDefZero with Version := "1" } ∧
    atoi txDefPos.Version = some 2 ∧
    afterCreateTransaction txDefPos = txDefPos ∧
    atoi ctrDefNeg.Version = some (-1) ∧
    afterCreateContract ctrDefNeg = { ctrDefNeg with Version := "3" } ∧
    atoi ctrDefPos.Version = some 7 ∧
    afterCreateContract ctrDefPos = ctrDefPos :=
  ⟨by decide,
   ((c10_definition_mutation.1 txDefZero 0 (by decide)).1 (by decide)).1,
   by decide,
   (c10_definition_mutation.1 txDefPos 2 (by decide)).2 (by decide),
   by decide,
   (c10_definition_mutation.2 ctrDefNeg (-1) (by decide)).1 (by decide),
   by decide,
   (c10_definition_mutation.2 ctrDefPos 7 (by decide)).2 (by decide)⟩
